import Mathlib

/-!
# Verification of the JSON-RPC engine and LSP session client

Shallow embedding of `src/editorlsp/jsonRpc.js` (class `JsonRpc`),
`src/editorlsp/lspClient.js` (factory `createLspClient`) and the send
behaviour of `src/transport.js` (class `WebSocketTransport`).

The JS engine is single threaded and event driven: message arrival, timer
expiry and abort-signal firing are discrete events processed to completion.
We model the engine state explicitly and each observable event as a state
transformer; a session run is a fold of events over the initial state of the
`JsonRpc` constructor.
-/

namespace EditorLsp

/-- A JSON-ish runtime value, as produced by `JSON.parse` plus the JS
`undefined` (absent property).  JSON numbers are modelled as integers: the
engine only ever inspects integral fields (`id`, `error.code`,
`textDocumentSync`, `change`). -/
inductive Value where
  | null : Value
  | undefined : Value
  | bool : Bool → Value
  | num : Int → Value
  | str : String → Value
  | arr : List Value → Value
  | obj : List (String × Value) → Value
  deriving Repr

namespace Value

mutual

/-- Decidable equality of values (the nested lists force a hand-rolled
instance). -/
def decEq : (a b : Value) → Decidable (a = b)
  | .null, .null => isTrue rfl
  | .undefined, .undefined => isTrue rfl
  | .bool a, .bool b =>
      match inferInstanceAs (Decidable (a = b)) with
      | isTrue h => isTrue (h ▸ rfl)
      | isFalse h => isFalse (fun hh => h (Value.bool.inj hh))
  | .num a, .num b =>
      match inferInstanceAs (Decidable (a = b)) with
      | isTrue h => isTrue (h ▸ rfl)
      | isFalse h => isFalse (fun hh => h (Value.num.inj hh))
  | .str a, .str b =>
      match inferInstanceAs (Decidable (a = b)) with
      | isTrue h => isTrue (h ▸ rfl)
      | isFalse h => isFalse (fun hh => h (Value.str.inj hh))
  | .arr xs, .arr ys =>
      match decEqList xs ys with
      | isTrue h => isTrue (h ▸ rfl)
      | isFalse h => isFalse (fun hh => h (Value.arr.inj hh))
  | .obj fs, .obj gs =>
      match decEqFields fs gs with
      | isTrue h => isTrue (h ▸ rfl)
      | isFalse h => isFalse (fun hh => h (Value.obj.inj hh))
  | .null, .undefined | .null, .bool _ | .null, .num _ | .null, .str _
  | .null, .arr _ | .null, .obj _
  | .undefined, .null | .undefined, .bool _ | .undefined, .num _ | .undefined, .str _
  | .undefined, .arr _ | .undefined, .obj _
  | .bool _, .null | .bool _, .undefined | .bool _, .num _ | .bool _, .str _
  | .bool _, .arr _ | .bool _, .obj _
  | .num _, .null | .num _, .undefined | .num _, .bool _ | .num _, .str _
  | .num _, .arr _ | .num _, .obj _
  | .str _, .null | .str _, .undefined | .str _, .bool _ | .str _, .num _
  | .str _, .arr _ | .str _, .obj _
  | .arr _, .null | .arr _, .undefined | .arr _, .bool _ | .arr _, .num _
  | .arr _, .str _ | .arr _, .obj _
  | .obj _, .null | .obj _, .undefined | .obj _, .bool _ | .obj _, .num _
  | .obj _, .str _ | .obj _, .arr _ => isFalse (by intro h; cases h)

/-- Decidable equality of value lists. -/
def decEqList : (xs ys : List Value) → Decidable (xs = ys)
  | [], [] => isTrue rfl
  | [], _ :: _ => isFalse (by intro h; cases h)
  | _ :: _, [] => isFalse (by intro h; cases h)
  | x :: xs, y :: ys =>
      match decEq x y, decEqList xs ys with
      | isTrue h1, isTrue h2 => isTrue (by rw [h1, h2])
      | isFalse h1, _ => isFalse (fun hh => h1 (List.cons.inj hh).1)
      | _, isFalse h2 => isFalse (fun hh => h2 (List.cons.inj hh).2)

/-- Decidable equality of field lists. -/
def decEqFields : (xs ys : List (String × Value)) → Decidable (xs = ys)
  | [], [] => isTrue rfl
  | [], _ :: _ => isFalse (by intro h; cases h)
  | _ :: _, [] => isFalse (by intro h; cases h)
  | (k, x) :: xs, (l, y) :: ys =>
      match inferInstanceAs (Decidable (k = l)), decEq x y, decEqFields xs ys with
      | isTrue hk, isTrue h1, isTrue h2 => isTrue (by rw [hk, h1, h2])
      | isFalse hk, _, _ =>
          isFalse (fun hh => hk (congrArg Prod.fst (List.cons.inj hh).1))
      | _, isFalse h1, _ =>
          isFalse (fun hh => h1 (congrArg Prod.snd (List.cons.inj hh).1))
      | _, _, isFalse h2 => isFalse (fun hh => h2 (List.cons.inj hh).2)

end

instance : DecidableEq Value := decEq

/-- JS truthiness of a value (`if (x)`).  `null`, `undefined`, `false`, `0`
and the empty string are falsy; objects and arrays are always truthy. -/
def truthy : Value → Bool
  | .null => false
  | .undefined => false
  | .bool b => b
  | .num n => n != 0
  | .str s => s != ""
  | .arr _ => true
  | .obj _ => true

/-- JS own-property test `Object.prototype.hasOwnProperty.call(v, k)`:
true only for an object
with an own property `k` (present even when its value is `null`). -/
def hasField : Value → String → Bool
  | .obj fs, k => fs.any (fun f => f.1 == k)
  | _, _ => false

/-- JS property read `v.k`: the field's value on an object that has it,
`undefined` otherwise.  (Reading a property of the literal `null` payload
throws a `TypeError` in JS before any engine state is touched; state-wise
that is the identity, which is how the callers below use this.) -/
def getField : Value → String → Value
  | .obj fs, k =>
      match fs.find? (fun f => f.1 == k) with
      | some f => f.2
      | none => .undefined
  | _, _ => .undefined

/-- Whether the value is an array (`Array.isArray`). -/
def isArr : Value → Bool
  | .arr _ => true
  | _ => false

/-- Key comparison of `Map.get` between a parsed JSON value and an
engine-allocated id (a JS number): only the same number matches. -/
def matchesNat : Value → Nat → Bool
  | .num n, j => n == (j : Int)
  | _, _ => false

end Value

/-- One entry of `this._pending` (`id -> {resolve,reject,timer,method}`).
The `resolve`/`reject` closures and the timer handle are identified by the
entry's id (a session never reuses an id), so only the captured `method`
needs to be stored. -/
structure PendingEntry where
  method : String
  deriving Repr, DecidableEq

/-- How a request's promise settled.  `resolved` is `entry.resolve(msg.result)`;
`rpcError` is the `Error` built from `msg.error` (fields `code`, `message`,
`data`); `timeout` is the `RPC timeout for ${method}` rejection; `aborted`
is the `DOMException('Operation canceled','AbortError')` rejection. -/
inductive Settlement where
  | resolved : Value → Settlement
  | rpcError : Value → Value → Value → Settlement
  | timeout : String → Settlement
  | aborted : Settlement
  deriving Repr, DecidableEq

/-- A frame passed to `transport.send` (after `JSON.stringify`). -/
inductive WireMsg where
  | request : Nat → String → Value → WireMsg
  | notification : String → Value → WireMsg
  deriving Repr, DecidableEq

/-- The mutable state of one `JsonRpc` instance together with its transport
and the observable history of the session.

* `nextId` is `this._id`; `timeoutMs` is `this.timeoutMs`.
* `pending` is `this._pending`, an insertion-ordered map (JS `Map`).
* `timers` holds the ids whose `setTimeout` timer is still scheduled,
  together with the `method` captured by the timeout closure.
* `handlers` is the set of method names with at least one subscriber in
  `this._handlers` (`on` registers string method names).
* `abortable` holds the ids whose `{once:true}` abort listener is
  registered and has not fired yet.
* `transportOpen` says whether `transport.send` succeeds: the
  `WebSocketTransport.send` of `src/transport.js` throws
  `'WebSocket not open'` unless the socket is `OPEN`.
* `sent` is the history of frames handed to `transport.send`.
* `settled` is the history of promise settlements `(id, outcome)`:
  a JS promise settles at most once, so a second `resolve`/`reject` on an
  already-settled id is a no-op (see `settle`).
* `emitted` is the history of notification dispatches by `_emit`
  (subscriber callbacks are external; an exception they raise is caught
  and logged by `_emit`, leaving engine state unchanged). -/
structure RpcState where
  nextId : Nat
  timeoutMs : Nat
  pending : List (Nat × PendingEntry)
  timers : List (Nat × String)
  handlers : List String
  abortable : List Nat
  transportOpen : Bool
  sent : List WireMsg
  settled : List (Nat × Settlement)
  emitted : List (String × Value)
  deriving Repr, DecidableEq

namespace RpcState

/-- Ids of the pending table. -/
def pendingIds (s : RpcState) : List Nat := s.pending.map Prod.fst

/-- Ids whose promise has settled. -/
def settledIds (s : RpcState) : List Nat := s.settled.map Prod.fst

end RpcState

/-- The state of a fresh `JsonRpc` instance: `this._id = 1`, empty pending
map, `this.timeoutMs = opts.timeoutMs ?? 10000`.  `openFlag` is the state
of the underlying transport. -/
def initState (timeoutOpt : Option Nat) (openFlag : Bool) : RpcState :=
  { nextId := 1
    timeoutMs := timeoutOpt.getD 10000
    pending := []
    timers := []
    handlers := []
    abortable := []
    transportOpen := openFlag
    sent := []
    settled := []
    emitted := [] }

/-- JS `Map.set`: overwrite an existing key, else append in insertion
order. -/
def mapSet (l : List (Nat × PendingEntry)) (k : Nat) (v : PendingEntry) :
    List (Nat × PendingEntry) :=
  if l.any (fun p => p.1 == k) then
    l.map (fun p => if p.1 == k then (k, v) else p)
  else l ++ [(k, v)]

/-- Settling the promise of request `id`: `resolve`/`reject` fire the first
time only; a promise already settled ignores further calls. -/
def settle (s : RpcState) (id : Nat) (out : Settlement) : RpcState :=
  if id ∈ s.settledIds then s
  else { s with settled := s.settled ++ [(id, out)] }

/-- Method `JsonRpc.notify(method, params)`: `transport.send` the notification
frame; throws (`.error`) when the transport is not open, leaving state
unchanged. -/
def notify (s : RpcState) (method : String) (params : Value) :
    Except Unit RpcState :=
  if s.transportOpen then
    .ok { s with sent := s.sent ++ [WireMsg.notification method params] }
  else .error ()

/-- Method `JsonRpc.request(method, params, {signal})`.

Faithful to the source order: `const id = this._id++` happens first; then
`this.transport.send(...)`, which throws when the transport is not open —
in that case `request` throws synchronously (result `none`) with the id
counter already advanced and nothing else changed.  Otherwise the `Promise`
executor runs synchronously: `setTimeout` schedules the timeout timer, the
entry is stored in `this._pending`, and when a signal is supplied a
`{once:true}` abort listener is registered.  Returns the new state and
`some id` of the created request. -/
def request (s : RpcState) (method : String) (params : Value)
    (hasSignal : Bool) : RpcState × Option Nat :=
  let id := s.nextId
  let s₁ := { s with nextId := s.nextId + 1 }
  if s₁.transportOpen then
    let s₂ := { s₁ with sent := s₁.sent ++ [WireMsg.request id method params] }
    let s₃ := { s₂ with
      timers := s₂.timers ++ [(id, method)]
      pending := mapSet s₂.pending id ⟨method⟩
      abortable := if hasSignal then s₂.abortable ++ [id] else s₂.abortable }
    (s₃, some id)
  else (s₁, none)

/-- The timeout timer of request `id` fires (only possible while it is
still scheduled).  The callback runs `this._pending.delete(id)` and
rejects with `RPC timeout for ${method}`; the fired timer is spent. -/
def timeoutFire (s : RpcState) (id : Nat) : RpcState :=
  match s.timers.find? (fun t => t.1 == id) with
  | none => s
  | some tm =>
      let s₁ := { s with
        timers := s.timers.filter (fun t => t.1 != id)
        pending := s.pending.filter (fun p => p.1 != id) }
      settle s₁ id (.timeout tm.2)

/-- The abort listener of request `id` fires (only possible while
registered; `{once:true}` removes it).  The listener sends a
`$/cancelRequest` notification with the original id inside `try {} catch {}`
(a transport failure is swallowed), then `clearTimeout(timer)`,
`this._pending.delete(id)` and rejects with the `AbortError`. -/
def abortFire (s : RpcState) (id : Nat) : RpcState :=
  if id ∈ s.abortable then
    let s₁ := { s with abortable := s.abortable.filter (fun j => j != id) }
    let s₂ :=
      match notify s₁ "$/cancelRequest" (.obj [("id", .num id)]) with
      | .ok s' => s'
      | .error _ => s₁
    let s₃ := { s₂ with
      timers := s₂.timers.filter (fun t => t.1 != id)
      pending := s₂.pending.filter (fun p => p.1 != id) }
    settle s₃ id .aborted
  else s

/-- The settlement `_handleMessage` produces from a response payload:
rejected with an error carrying `msg.error.code`,
`msg.error.message || 'RPC Error'` and `msg.error.data` when `msg.error`
is truthy, else resolved with `msg.result`. -/
def responseOutcome (v : Value) : Settlement :=
  let errv := v.getField "error"
  if errv.truthy then
    .rpcError (errv.getField "code")
      (if (errv.getField "message").truthy then errv.getField "message"
       else .str "RPC Error")
      (errv.getField "data")
  else .resolved (v.getField "result")

/-- Lookup `this._pending.get(msg.id)` for the payload `v`. -/
def lookupPending (s : RpcState) (v : Value) : Option (Nat × PendingEntry) :=
  s.pending.find? (fun p => (v.getField "id").matchesNat p.1)

mutual

/-- Method `JsonRpc._handleMessage` on an already-parsed payload.  An array is a
batch handled element-wise (the source round-trips each element through
`JSON.stringify`/`JSON.parse`, the identity on parsed JSON).  A payload
with an own `id` property is a response: an unmatched id returns with no
effect; a match clears the timer, removes the entry and settles the
promise per `responseOutcome`.  Otherwise a truthy `method` is dispatched
by `_emit` to the subscribers registered for that method name, if any. -/
def handleValue (s : RpcState) : Value → RpcState
  | .arr xs => handleList s xs
  | v =>
    if v.hasField "id" then
      match lookupPending s v with
      | none => s
      | some pe =>
          let s₁ := { s with
            timers := s.timers.filter (fun t => t.1 != pe.1)
            pending := s.pending.filter (fun p => p.1 != pe.1) }
          settle s₁ pe.1 (responseOutcome v)
    else
      match v.getField "method" with
      | .str m =>
          if m != "" && s.handlers.contains m then
            { s with emitted := s.emitted ++ [(m, v.getField "params")] }
          else s
      | _ => s

/-- Batch loop of `_handleMessage`. -/
def handleList (s : RpcState) : List Value → RpcState
  | [] => s
  | v :: vs => handleList (handleValue s v) vs

end

/-- An observable event of one session: a `request()` call, an inbound
payload, a timer expiry, an abort-signal trigger, a `notify()` call, or
the transport opening/closing. -/
inductive Event where
  | req : String → Value → Bool → Event
  | recv : Value → Event
  | timerFires : Nat → Event
  | abortFires : Nat → Event
  | notifyCall : String → Value → Event
  | transport : Bool → Event
  deriving Repr, DecidableEq

/-- One event processed to completion (the single-threaded event loop). -/
def step (s : RpcState) : Event → RpcState
  | .req m p sig => (request s m p sig).1
  | .recv v => handleValue s v
  | .timerFires id => timeoutFire s id
  | .abortFires id => abortFire s id
  | .notifyCall m p =>
      match notify s m p with
      | .ok s' => s'
      | .error _ => s
  | .transport b => { s with transportOpen := b }

/-- A session run: events folded over a state. -/
def run (s : RpcState) (es : List Event) : RpcState := es.foldl step s

/-- The ids allocated by the `request()` calls of a run, in order (every
call allocates, even one that throws at `transport.send`). -/
def allocIds (s : RpcState) : List Event → List Nat
  | [] => []
  | .req m p sig :: es => s.nextId :: allocIds (step s (.req m p sig)) es
  | e :: es => allocIds (step s e) es

/-- Whether an event is a `request()` call. -/
def Event.isReq : Event → Bool
  | .req _ _ _ => true
  | _ => false

/-- Whether a non-array payload is a response addressed to the request
id `j`: an own `id` property whose value matches `j` under the pending-map
key comparison. -/
def isResponseFor (v : Value) (j : Nat) : Bool :=
  !v.isArr && v.hasField "id" && (v.getField "id").matchesNat j

/-- The ids of the `Request` frames handed to `transport.send`. -/
def sentReqIds (s : RpcState) : List Nat :=
  s.sent.filterMap (fun m =>
    match m with
    | .request i _ _ => some i
    | .notification _ _ => none)

/-! ## Session client (`src/editorlsp/lspClient.js`) -/

/-- Initial `serverSyncKind = 1`: the default kind before the `initialize`
response is processed (Full per protocol). -/
def initialSyncKind : Value := .num 1

/-- JS `typeof v === 'number'`. -/
def jsTypeofNumber : Value → Bool
  | .num _ => true
  | _ => false

/-- JS `typeof v === 'object'`: true for objects, arrays and the literal
`null`. -/
def jsTypeofObject : Value → Bool
  | .obj _ => true
  | .arr _ => true
  | .null => true
  | _ => false

/-- JS loose comparison `x != null`: false exactly for `null` and
`undefined`. -/
def looseNonNull : Value → Bool
  | .null => false
  | .undefined => false
  | _ => true

/-- Assignment `serverCapabilities = res.capabilities || (empty object)` of the session client's
`initialize`. -/
def capabilitiesOf (res : Value) : Value :=
  if (res.getField "capabilities").truthy then res.getField "capabilities"
  else .obj []

/-- The capability-processing tail of the session client's `initialize`,
run on the resolved result `res` with the previous kind `prev`:

```
const sync = serverCapabilities.textDocumentSync;
if (typeof sync === 'number') serverSyncKind = sync;
else if (typeof sync === 'object' && sync.change != null) serverSyncKind = sync.change;
```

Returns the new `serverSyncKind`, or `none` when the JS code throws: when
`textDocumentSync` is the literal `null` its `typeof` is `'object'`, and
reading `sync.change` raises a `TypeError`. -/
def deriveSyncKind (prev res : Value) : Option Value :=
  let sync := (capabilitiesOf res).getField "textDocumentSync"
  if jsTypeofNumber sync then some sync
  else if jsTypeofObject sync then
    if sync = .null then none
    else if looseNonNull (sync.getField "change") then
      some (sync.getField "change")
    else some prev
  else some prev

/-- The session client's `shutdown()`:
`try { return await rpc.request('shutdown'); } finally { rpc.notify('exit'); }`.
The `shutdown` request is issued first (its frame goes out, or the call
throws with no pending entry created); `interim` is whatever happens while
the caller awaits the returned promise; once control re-enters `shutdown`,
the `finally` clause invokes `rpc.notify('exit')` before control returns to
the caller — whatever the request settled with.  (When the transport is
closed at that point, `transport.send` throws inside `notify` and no frame
goes out.) -/
def shutdownCall (s : RpcState) (interim : List Event) : RpcState :=
  let s₂ := run (request s "shutdown" .undefined false).1 interim
  match notify s₂ "exit" .undefined with
  | .ok s' => s'
  | .error _ => s₂

/-! ## Lemmas about `settle` -/

theorem settle_of_mem {s : RpcState} {id : Nat} {out : Settlement}
    (h : id ∈ s.settledIds) : settle s id out = s := by
  simp [settle, h]

theorem settle_of_not_mem {s : RpcState} {id : Nat} {out : Settlement}
    (h : id ∉ s.settledIds) :
    settle s id out = { s with settled := s.settled ++ [(id, out)] } := by
  simp [settle, h]

theorem settle_settled_cases (s : RpcState) (id : Nat) (out : Settlement) :
    (settle s id out).settled = s.settled ∨
      ((settle s id out).settled = s.settled ++ [(id, out)] ∧
        id ∉ s.settledIds) := by
  by_cases h : id ∈ s.settledIds
  · exact .inl (by rw [settle_of_mem h])
  · exact .inr ⟨by rw [settle_of_not_mem h], h⟩

theorem settle_pending (s : RpcState) (id : Nat) (out : Settlement) :
    (settle s id out).pending = s.pending := by
  unfold settle; split <;> rfl

theorem settle_timers (s : RpcState) (id : Nat) (out : Settlement) :
    (settle s id out).timers = s.timers := by
  unfold settle; split <;> rfl

theorem settle_nextId (s : RpcState) (id : Nat) (out : Settlement) :
    (settle s id out).nextId = s.nextId := by
  unfold settle; split <;> rfl

theorem settle_sent (s : RpcState) (id : Nat) (out : Settlement) :
    (settle s id out).sent = s.sent := by
  unfold settle; split <;> rfl

theorem settle_timeoutMs (s : RpcState) (id : Nat) (out : Settlement) :
    (settle s id out).timeoutMs = s.timeoutMs := by
  unfold settle; split <;> rfl

theorem settle_handlers (s : RpcState) (id : Nat) (out : Settlement) :
    (settle s id out).handlers = s.handlers := by
  unfold settle; split <;> rfl

theorem settle_abortable (s : RpcState) (id : Nat) (out : Settlement) :
    (settle s id out).abortable = s.abortable := by
  unfold settle; split <;> rfl

theorem settle_transportOpen (s : RpcState) (id : Nat) (out : Settlement) :
    (settle s id out).transportOpen = s.transportOpen := by
  unfold settle; split <;> rfl

theorem settle_settled_mono {s : RpcState} {id : Nat} {out : Settlement}
    {p : Nat × Settlement} (h : p ∈ s.settled) :
    p ∈ (settle s id out).settled := by
  rcases settle_settled_cases s id out with hc | ⟨hc, _⟩ <;>
    simp [hc, h]

theorem settle_nodup {s : RpcState} {id : Nat} {out : Settlement}
    (h : s.settledIds.Nodup) : (settle s id out).settledIds.Nodup := by
  by_cases hm : id ∈ s.settledIds
  · rw [settle_of_mem hm]; exact h
  · rw [settle_of_not_mem hm]
    simp only [RpcState.settledIds, List.map_append, List.map_cons,
      List.map_nil, List.nodup_append]
    exact ⟨h, List.nodup_singleton id, by
      intro a ha hb
      simp only [List.mem_singleton] at hb
      exact hm (hb ▸ ha)⟩

/-! ## Lemmas about `handleValue` -/

/-- Behaviour of `_handleMessage` on a non-array payload, spelled out. -/
theorem handleValue_not_arr (s : RpcState) (v : Value) (h : v.isArr = false) :
    handleValue s v =
      (if v.hasField "id" then
        match lookupPending s v with
        | none => s
        | some pe =>
            settle { s with
              timers := s.timers.filter (fun t => t.1 != pe.1)
              pending := s.pending.filter (fun p => p.1 != pe.1) }
              pe.1 (responseOutcome v)
      else
        match v.getField "method" with
        | .str m =>
            if m != "" && s.handlers.contains m then
              { s with emitted := s.emitted ++ [(m, v.getField "params")] }
            else s
        | _ => s) := by
  cases v <;> first | rfl | simp [Value.isArr] at h

/-- Fields of the engine state that inbound message handling never touches,
together with the guarantees that handling only consumes pending entries
and timers, only appends settlements, and keeps settlement ids distinct. -/
def HandleInv (s t : RpcState) : Prop :=
  t.nextId = s.nextId ∧ t.timeoutMs = s.timeoutMs ∧ t.handlers = s.handlers ∧
  t.abortable = s.abortable ∧ t.transportOpen = s.transportOpen ∧
  t.sent = s.sent ∧
  (∀ p, p ∈ s.settled → p ∈ t.settled) ∧
  (∀ p, p ∈ t.pending → p ∈ s.pending) ∧
  (∀ tm, tm ∈ t.timers → tm ∈ s.timers) ∧
  (s.settledIds.Nodup → t.settledIds.Nodup)

theorem HandleInv.refl (s : RpcState) : HandleInv s s :=
  ⟨rfl, rfl, rfl, rfl, rfl, rfl, fun _ h => h, fun _ h => h, fun _ h => h,
    fun h => h⟩

theorem HandleInv.trans {a b c : RpcState}
    (h1 : HandleInv a b) (h2 : HandleInv b c) : HandleInv a c := by
  obtain ⟨e1, e2, e3, e4, e5, e6, m1, m2, m3, m4⟩ := h1
  obtain ⟨f1, f2, f3, f4, f5, f6, n1, n2, n3, n4⟩ := h2
  exact ⟨f1.trans e1, f2.trans e2, f3.trans e3, f4.trans e4, f5.trans e5,
    f6.trans e6, fun p hp => n1 p (m1 p hp), fun p hp => m2 p (n2 p hp),
    fun tm htm => m3 tm (n3 tm htm), fun h => n4 (m4 h)⟩

theorem handleInv_not_arr (s : RpcState) (v : Value) (h : v.isArr = false) :
    HandleInv s (handleValue s v) := by
  rw [handleValue_not_arr s v h]
  split
  · cases hl : lookupPending s v with
    | none => exact HandleInv.refl s
    | some pe =>
        refine ⟨settle_nextId _ _ _, settle_timeoutMs _ _ _,
          settle_handlers _ _ _, settle_abortable _ _ _,
          settle_transportOpen _ _ _, settle_sent _ _ _,
          fun p hp => settle_settled_mono hp, ?_, ?_, fun hn => settle_nodup hn⟩
        · intro p hp
          rw [settle_pending] at hp
          exact (List.mem_filter.mp hp).1
        · intro tm htm
          rw [settle_timers] at htm
          exact (List.mem_filter.mp htm).1
  · split
    · split
      · exact ⟨rfl, rfl, rfl, rfl, rfl, rfl, fun _ h => h, fun _ h => h,
          fun _ h => h, fun h => h⟩
      · exact HandleInv.refl s
    · exact HandleInv.refl s

mutual

/-- Handling any payload preserves the `HandleInv` guarantees. -/
theorem handleValue_inv : ∀ (s : RpcState) (v : Value),
    HandleInv s (handleValue s v)
  | s, .arr xs => handleList_inv s xs
  | s, .null => handleInv_not_arr s .null rfl
  | s, .undefined => handleInv_not_arr s .undefined rfl
  | s, .bool b => handleInv_not_arr s (.bool b) rfl
  | s, .num n => handleInv_not_arr s (.num n) rfl
  | s, .str m => handleInv_not_arr s (.str m) rfl
  | s, .obj fs => handleInv_not_arr s (.obj fs) rfl

/-- Handling a batch preserves the `HandleInv` guarantees. -/
theorem handleList_inv : ∀ (s : RpcState) (vs : List Value),
    HandleInv s (handleList s vs)
  | s, [] => HandleInv.refl s
  | s, v :: vs =>
      HandleInv.trans (handleValue_inv s v)
        (handleList_inv (handleValue s v) vs)

end

/-! ## Lookup and single-response lemmas -/

theorem matchesNat_inj {v : Value} {i j : Nat}
    (hi : v.matchesNat i = true) (hj : v.matchesNat j = true) : i = j := by
  cases v <;> simp [Value.matchesNat] at hi hj
  omega

theorem lookupPending_matches {s : RpcState} {v : Value}
    {pe : Nat × PendingEntry} (h : lookupPending s v = some pe) :
    (v.getField "id").matchesNat pe.1 = true := by
  unfold lookupPending at h
  have := List.find?_some h
  simpa using this

theorem lookupPending_mem {s : RpcState} {v : Value}
    {pe : Nat × PendingEntry} (h : lookupPending s v = some pe) :
    pe ∈ s.pending :=
  List.mem_of_find?_eq_some h

theorem lookupPending_none {s : RpcState} {v : Value} {j : Nat}
    (hm : (v.getField "id").matchesNat j = true)
    (hnp : ∀ p ∈ s.pending, p.1 ≠ j) : lookupPending s v = none := by
  apply List.find?_eq_none.mpr
  intro p hp
  intro hpt
  exact hnp p hp (matchesNat_inj hpt hm)

theorem lookupPending_finds {s : RpcState} {v : Value} {j : Nat}
    (hm : (v.getField "id").matchesNat j = true)
    (hp : j ∈ s.pendingIds) : ∃ e, lookupPending s v = some (j, e) := by
  obtain ⟨p, hpmem, hpj⟩ := List.mem_map.mp hp
  cases hfind : lookupPending s v with
  | none =>
      exfalso
      have := List.find?_eq_none.mp hfind p hpmem
      rw [hpj] at this
      exact this hm
  | some q =>
      have hq1 : q.1 = j := matchesNat_inj (lookupPending_matches hfind) hm
      exact ⟨q.2, by cases q; simp_all⟩

/-- A response payload whose id matches no pending entry is handled with no
effect at all. -/
theorem handleValue_resp_unmatched (s : RpcState) (v : Value)
    (hid : v.hasField "id" = true) (hn : lookupPending s v = none) :
    handleValue s v = s := by
  have harr : v.isArr = false := by
    cases v <;> simp_all [Value.hasField, Value.isArr]
  rw [handleValue_not_arr s v harr, if_pos hid, hn]

/-- A response payload matched to pending entry `(id, e)`: the timer is
cleared, the entry removed, and request `id` settled with the payload's own
outcome. -/
theorem handleValue_resp_matched (s : RpcState) (v : Value)
    (id : Nat) (e : PendingEntry)
    (hid : v.hasField "id" = true) (hs : lookupPending s v = some (id, e)) :
    handleValue s v =
      settle { s with
        timers := s.timers.filter (fun t => t.1 != id)
        pending := s.pending.filter (fun p => p.1 != id) }
        id (responseOutcome v) := by
  have harr : v.isArr = false := by
    cases v <;> simp_all [Value.hasField, Value.isArr]
  rw [handleValue_not_arr s v harr, if_pos hid, hs]

/-! ## Characterization of the other events -/

theorem notify_open {s : RpcState} (m : String) (p : Value)
    (ho : s.transportOpen = true) :
    notify s m p = .ok { s with sent := s.sent ++ [.notification m p] } := by
  simp [notify, ho]

theorem notify_closed {s : RpcState} (m : String) (p : Value)
    (ho : s.transportOpen = false) : notify s m p = .error () := by
  simp [notify, ho]

theorem request_open {s : RpcState} (m : String) (p : Value) (g : Bool)
    (ho : s.transportOpen = true) :
    request s m p g =
      ({ s with
          nextId := s.nextId + 1
          sent := s.sent ++ [.request s.nextId m p]
          timers := s.timers ++ [(s.nextId, m)]
          pending := mapSet s.pending s.nextId ⟨m⟩
          abortable :=
            if g then s.abortable ++ [s.nextId] else s.abortable },
        some s.nextId) := by
  simp [request, ho]

theorem request_closed {s : RpcState} (m : String) (p : Value) (g : Bool)
    (ho : s.transportOpen = false) :
    request s m p g = ({ s with nextId := s.nextId + 1 }, none) := by
  simp [request, ho]

theorem timeoutFire_spent {s : RpcState} {id : Nat}
    (h : s.timers.find? (fun t => t.1 == id) = none) :
    timeoutFire s id = s := by
  simp [timeoutFire, h]

theorem timeoutFire_scheduled {s : RpcState} {id : Nat} {tm : Nat × String}
    (h : s.timers.find? (fun t => t.1 == id) = some tm) :
    timeoutFire s id =
      settle { s with
          timers := s.timers.filter (fun t => t.1 != id)
          pending := s.pending.filter (fun p => p.1 != id) }
        id (.timeout tm.2) := by
  simp [timeoutFire, h]

theorem abortFire_not_registered {s : RpcState} {id : Nat}
    (hm : id ∉ s.abortable) : abortFire s id = s := by
  simp [abortFire, hm]

theorem abortFire_open {s : RpcState} {id : Nat}
    (hm : id ∈ s.abortable) (ho : s.transportOpen = true) :
    abortFire s id =
      settle { s with
          abortable := s.abortable.filter (fun j => j != id)
          sent := s.sent ++
            [.notification "$/cancelRequest" (.obj [("id", .num id)])]
          timers := s.timers.filter (fun t => t.1 != id)
          pending := s.pending.filter (fun p => p.1 != id) }
        id .aborted := by
  simp [abortFire, notify, hm, ho]

theorem abortFire_closed {s : RpcState} {id : Nat}
    (hm : id ∈ s.abortable) (ho : s.transportOpen = false) :
    abortFire s id =
      settle { s with
          abortable := s.abortable.filter (fun j => j != id)
          timers := s.timers.filter (fun t => t.1 != id)
          pending := s.pending.filter (fun p => p.1 != id) }
        id .aborted := by
  simp [abortFire, notify, hm, ho]

theorem timeoutFire_shape (s : RpcState) (id : Nat) :
    (timeoutFire s id).nextId = s.nextId ∧
    (timeoutFire s id).sent = s.sent ∧
    (s.settledIds.Nodup → (timeoutFire s id).settledIds.Nodup) := by
  cases h : s.timers.find? (fun t => t.1 == id) with
  | none => rw [timeoutFire_spent h]; exact ⟨rfl, rfl, fun h => h⟩
  | some tm =>
      rw [timeoutFire_scheduled h]
      exact ⟨settle_nextId _ _ _, settle_sent _ _ _, fun h => settle_nodup h⟩

theorem abortFire_shape (s : RpcState) (id : Nat) :
    (abortFire s id).nextId = s.nextId ∧
    ((abortFire s id).sent = s.sent ∨
      (abortFire s id).sent =
        s.sent ++ [.notification "$/cancelRequest" (.obj [("id", .num id)])]) ∧
    (s.settledIds.Nodup → (abortFire s id).settledIds.Nodup) := by
  by_cases hm : id ∈ s.abortable
  · by_cases ho : s.transportOpen = true
    · rw [abortFire_open hm ho]
      exact ⟨settle_nextId _ _ _, .inr (settle_sent _ _ _),
        fun h => settle_nodup h⟩
    · rw [abortFire_closed hm (by simpa using ho)]
      exact ⟨settle_nextId _ _ _, .inl (settle_sent _ _ _),
        fun h => settle_nodup h⟩
  · rw [abortFire_not_registered hm]
    exact ⟨rfl, .inl rfl, fun h => h⟩

theorem request_shape (s : RpcState) (m : String) (p : Value) (g : Bool) :
    (request s m p g).1.nextId = s.nextId + 1 ∧
    ((request s m p g).1.sent = s.sent ∨
      (request s m p g).1.sent = s.sent ++ [.request s.nextId m p]) ∧
    (request s m p g).1.settled = s.settled := by
  by_cases ho : s.transportOpen = true
  · rw [request_open m p g ho]
    exact ⟨rfl, .inr rfl, rfl⟩
  · rw [request_closed m p g (by simpa using ho)]
    exact ⟨rfl, .inl rfl, rfl⟩

theorem notify_shape (s : RpcState) (m : String) (p : Value) :
    (step s (.notifyCall m p)).nextId = s.nextId ∧
    ((step s (.notifyCall m p)).sent = s.sent ∨
      (step s (.notifyCall m p)).sent = s.sent ++ [.notification m p]) ∧
    (step s (.notifyCall m p)).settled = s.settled := by
  by_cases ho : s.transportOpen = true
  · simp [step, notify_open m p ho]
  · simp [step, notify_closed m p (by simpa using ho)]

theorem step_nextId (s : RpcState) (e : Event) :
    (step s e).nextId = if e.isReq then s.nextId + 1 else s.nextId := by
  cases e with
  | req m p g =>
      simp only [step, Event.isReq, if_pos]
      exact (request_shape s m p g).1
  | recv v =>
      simpa [step, Event.isReq] using (handleValue_inv s v).1
  | timerFires id =>
      simpa [step, Event.isReq] using (timeoutFire_shape s id).1
  | abortFires id =>
      simpa [step, Event.isReq] using (abortFire_shape s id).1
  | notifyCall m p => simpa [Event.isReq] using (notify_shape s m p).1
  | transport b => simp [step, Event.isReq]

theorem step_nodup (s : RpcState) (e : Event) (h : s.settledIds.Nodup) :
    (step s e).settledIds.Nodup := by
  cases e with
  | req m p g =>
      have := (request_shape s m p g).2.2
      simpa [step, RpcState.settledIds, this] using h
  | recv v => exact (handleValue_inv s v).2.2.2.2.2.2.2.2.2 h
  | timerFires id => exact (timeoutFire_shape s id).2.2 h
  | abortFires id => exact (abortFire_shape s id).2.2 h
  | notifyCall m p =>
      have := (notify_shape s m p).2.2
      simpa [RpcState.settledIds, this] using h
  | transport b => simpa [step, RpcState.settledIds] using h

theorem run_nodup (es : List Event) : ∀ (s : RpcState),
    s.settledIds.Nodup → (run s es).settledIds.Nodup := by
  induction es with
  | nil => exact fun s h => h
  | cons e es ih => exact fun s h => ih (step s e) (step_nodup s e h)

theorem allocIds_eq (es : List Event) : ∀ (s : RpcState),
    allocIds s es = List.range' s.nextId (es.countP (fun e => e.isReq)) := by
  induction es with
  | nil => intro s; simp [allocIds]
  | cons e es ih =>
      intro s
      cases e with
      | req m p g =>
          have hn : (step s (.req m p g)).nextId = s.nextId + 1 := by
            simpa [Event.isReq] using step_nextId s (.req m p g)
          simp only [allocIds, ih, hn, List.countP_cons, Event.isReq]
          simp [List.range'_succ]
      | recv v =>
          have hn := step_nextId s (.recv v)
          simp only [Event.isReq, if_neg, Bool.false_eq_true,
            not_false_iff] at hn
          simp [allocIds, ih, hn, List.countP_cons, Event.isReq]
      | timerFires id =>
          have hn := step_nextId s (.timerFires id)
          simp only [Event.isReq, if_neg, Bool.false_eq_true,
            not_false_iff] at hn
          simp [allocIds, ih, hn, List.countP_cons, Event.isReq]
      | abortFires id =>
          have hn := step_nextId s (.abortFires id)
          simp only [Event.isReq, if_neg, Bool.false_eq_true,
            not_false_iff] at hn
          simp [allocIds, ih, hn, List.countP_cons, Event.isReq]
      | notifyCall m p =>
          have hn := step_nextId s (.notifyCall m p)
          simp only [Event.isReq, if_neg, Bool.false_eq_true,
            not_false_iff] at hn
          simp [allocIds, ih, hn, List.countP_cons, Event.isReq]
      | transport b =>
          have hn := step_nextId s (.transport b)
          simp only [Event.isReq, if_neg, Bool.false_eq_true,
            not_false_iff] at hn
          simp [allocIds, ih, hn, List.countP_cons, Event.isReq]

theorem step_skip (s : RpcState) (e : Event) (i : Nat)
    (h1 : i ∉ sentReqIds s) (h2 : i < s.nextId) :
    i ∉ sentReqIds (step s e) ∧ i < (step s e).nextId := by
  have hnext : i < (step s e).nextId := by
    rw [step_nextId]; split <;> omega
  refine ⟨?_, hnext⟩
  cases e with
  | req m p g =>
      by_cases ho : s.transportOpen = true
      · simp only [step, request_open m p g ho]
        intro hmem
        simp only [sentReqIds, List.filterMap_append] at hmem
        rcases List.mem_append.mp hmem with hmem | hmem
        · exact h1 hmem
        · simp at hmem; omega
      · simp only [step, request_closed m p g (by simpa using ho)]
        exact h1
  | recv v =>
      have := (handleValue_inv s v).2.2.2.2.2.1
      simpa [step, sentReqIds, this] using h1
  | timerFires id =>
      have := (timeoutFire_shape s id).2.1
      simpa [step, sentReqIds, this] using h1
  | abortFires id =>
      rcases (abortFire_shape s id).2.1 with hs | hs <;>
        simp_all [step, sentReqIds, List.filterMap_append]
  | notifyCall m p =>
      rcases (notify_shape s m p).2.1 with hs | hs <;>
        simp_all [sentReqIds, List.filterMap_append]
  | transport b => simpa [step, sentReqIds] using h1

theorem run_skip (es : List Event) : ∀ (s : RpcState) (i : Nat),
    i ∉ sentReqIds s → i < s.nextId → i ∉ sentReqIds (run s es) := by
  induction es with
  | nil => exact fun s i h1 _ => h1
  | cons e es ih =>
      intro s i h1 h2
      exact ih (step s e) i (step_skip s e i h1 h2).1 (step_skip s e i h1 h2).2

theorem isResponseFor_spec {v : Value} {j : Nat}
    (h : isResponseFor v j = true) :
    v.isArr = false ∧ v.hasField "id" = true ∧
      (v.getField "id").matchesNat j = true := by
  simp only [isResponseFor, Bool.and_eq_true, Bool.not_eq_true'] at h
  exact ⟨h.1.1, h.1.2, h.2⟩

theorem abortFire_open_unsettled {s : RpcState} {id : Nat}
    (hreg : id ∈ s.abortable) (ho : s.transportOpen = true)
    (hun : id ∉ s.settledIds) :
    abortFire s id =
      { s with
        abortable := s.abortable.filter (fun j => j != id)
        sent := s.sent ++
          [.notification "$/cancelRequest" (.obj [("id", .num id)])]
        timers := s.timers.filter (fun t => t.1 != id)
        pending := s.pending.filter (fun p => p.1 != id)
        settled := s.settled ++ [(id, .aborted)] } := by
  have hun' : id ∈ s.settledIds ↔ False := by simp [hun]
  simp only [abortFire, notify, settle, RpcState.settledIds, hreg, ho,
    hun'] 
  simp [RpcState.settledIds]
  intro x hx
  exact hun (List.mem_map.mpr ⟨(id, x), hx, rfl⟩)

theorem timeoutFire_unsettled {s : RpcState} {id : Nat} {tm : Nat × String}
    (h : s.timers.find? (fun t => t.1 == id) = some tm)
    (hun : id ∉ s.settledIds) :
    timeoutFire s id =
      { s with
        timers := s.timers.filter (fun t => t.1 != id)
        pending := s.pending.filter (fun p => p.1 != id)
        settled := s.settled ++ [(id, .timeout tm.2)] } := by
  have hun' : id ∈ s.settledIds ↔ False := by simp [hun]
  simp [timeoutFire, h, settle, RpcState.settledIds, hun']
  intro x hx
  exact hun (List.mem_map.mpr ⟨(id, x), hx, rfl⟩)

theorem handleValue_resp_settles {s : RpcState} {v : Value} {id : Nat}
    {e : PendingEntry}
    (hid : v.hasField "id" = true) (hl : lookupPending s v = some (id, e))
    (hun : id ∉ s.settledIds) :
    handleValue s v =
      { s with
        timers := s.timers.filter (fun t => t.1 != id)
        pending := s.pending.filter (fun p => p.1 != id)
        settled := s.settled ++ [(id, responseOutcome v)] } := by
  rw [handleValue_resp_matched s v id e hid hl]
  have hun' : id ∈ s.settledIds ↔ False := by simp [hun]
  simp [settle, RpcState.settledIds, hun']
  intro x hx
  exact hun (List.mem_map.mpr ⟨(id, x), hx, rfl⟩)

/-! ## Claims -/

/-- C8: within one `JsonRpc` session, `request()` allocates exactly the ids
`1, 2, 3, …` in order of the calls: every allocated id is a positive
integer, the first allocated id is 1, each is strictly greater than all
earlier ones, and none is ever reused; the counter lives in the engine
state, never supplied by the caller. -/
theorem JsonRpc_id_allocation (timeoutOpt : Option Nat) (b : Bool)
    (es : List Event) :
    allocIds (initState timeoutOpt b) es =
      List.range' 1 (es.countP (fun e => e.isReq)) ∧
    (allocIds (initState timeoutOpt b) es).Pairwise (· < ·) ∧
    (allocIds (initState timeoutOpt b) es).Nodup ∧
    (∀ i ∈ allocIds (initState timeoutOpt b) es, 0 < i) ∧
    (0 < es.countP (fun e => e.isReq) →
      (allocIds (initState timeoutOpt b) es).head? = some 1) := by
  have h := allocIds_eq es (initState timeoutOpt b)
  have hinit : (initState timeoutOpt b).nextId = 1 := rfl
  rw [hinit] at h
  refine ⟨h, ?_, ?_, ?_, ?_⟩
  · rw [h]; exact List.pairwise_lt_range' 1 _
  · rw [h]; exact List.nodup_range' 1 _
  · rw [h]; intro i hi; have := List.mem_range'_1.mp hi; omega
  · intro hc
    rw [h]
    cases hk : es.countP (fun e => e.isReq) with
    | zero => rw [hk] at hc; exact absurd hc (lt_irrefl 0)
    | succ k => rw [List.range'_succ]; rfl

/-- Witness for C8 at a concrete event list with two `request()` calls and
an interleaved inbound message. -/
theorem JsonRpc_id_allocation_witness :
    0 < ([Event.req "textDocument/hover" .null false, Event.recv .null,
      Event.req "textDocument/completion" .null true].countP
        (fun e => e.isReq)) ∧
    (allocIds (initState none true)
      [Event.req "textDocument/hover" .null false, Event.recv .null,
        Event.req "textDocument/completion" .null true]).head? = some 1 :=
  ⟨by decide,
    (JsonRpc_id_allocation none true
      [Event.req "textDocument/hover" .null false, Event.recv .null,
        Event.req "textDocument/completion" .null true]).2.2.2.2 (by decide)⟩

/-- C10: when `transport.send` throws inside `request()` (transport not
open), the call throws synchronously instead of returning a future: the
pending table, timers, sent frames, settlements and abort listeners are
unchanged, while the id counter has advanced — and the skipped id never
appears in any `Request` frame for the rest of the session. -/
theorem JsonRpc_send_throw_skips_id (s : RpcState) (m : String) (p : Value)
    (g : Bool) (hclosed : s.transportOpen = false)
    (hb : ∀ i ∈ sentReqIds s, i < s.nextId) :
    (request s m p g).2 = none ∧
    (request s m p g).1.pending = s.pending ∧
    (request s m p g).1.timers = s.timers ∧
    (request s m p g).1.sent = s.sent ∧
    (request s m p g).1.settled = s.settled ∧
    (request s m p g).1.abortable = s.abortable ∧
    (request s m p g).1.nextId = s.nextId + 1 ∧
    ∀ es, s.nextId ∉ sentReqIds (run (request s m p g).1 es) := by
  rw [request_closed m p g hclosed]
  refine ⟨rfl, rfl, rfl, rfl, rfl, rfl, rfl, ?_⟩
  intro es
  exact run_skip es _ s.nextId
    (fun hmem => absurd (hb _ hmem) (lt_irrefl _)) (Nat.lt_succ_self _)

/-- Witness for C10: a fresh session whose transport is not open. -/
theorem JsonRpc_send_throw_skips_id_witness :
    (initState none false).transportOpen = false ∧
    (∀ i ∈ sentReqIds (initState none false),
      i < (initState none false).nextId) ∧
    (request (initState none false) "textDocument/hover" .null false).2 =
      none ∧
    1 ∉ sentReqIds (run
      (request (initState none false) "textDocument/hover" .null false).1
      [Event.transport true, Event.req "textDocument/completion" .null false]) := by
  have h := JsonRpc_send_throw_skips_id (initState none false)
    "textDocument/hover" .null false rfl (by decide)
  exact ⟨rfl, by decide, h.1, h.2.2.2.2.2.2.2
    [Event.transport true, Event.req "textDocument/completion" .null false]⟩

/-- C1: over any session run, settlement ids stay distinct — a settled
future never settles again — and handling a response payload bearing id `j`
can add a settlement only for request `j`, carrying that payload's own
outcome; every pending entry of a different id survives untouched. -/
theorem JsonRpc_no_crosstalk (timeoutOpt : Option Nat) (b : Bool)
    (es : List Event) (s : RpcState) (v : Value) (j : Nat)
    (hs : s = run (initState timeoutOpt b) es)
    (hv : isResponseFor v j = true) :
    s.settledIds.Nodup ∧
    (∀ p ∈ (handleValue s v).settled,
        p ∈ s.settled ∨ (p.1 = j ∧ p.2 = responseOutcome v)) ∧
    (∀ q ∈ s.pending, q.1 ≠ j → q ∈ (handleValue s v).pending) := by
  obtain ⟨harr, hid, hm⟩ := isResponseFor_spec hv
  have hnodup : s.settledIds.Nodup := by
    rw [hs]
    exact run_nodup es _ (by simp [initState, RpcState.settledIds])
  refine ⟨hnodup, ?_, ?_⟩
  · cases hl : lookupPending s v with
    | none =>
        rw [handleValue_resp_unmatched s v hid hl]
        exact fun p hp => .inl hp
    | some pe =>
        obtain ⟨i, e⟩ := pe
        have hij : i = j :=
          matchesNat_inj (lookupPending_matches hl) hm
        rw [handleValue_resp_matched s v i e hid hl]
        intro p hp
        rcases settle_settled_cases _ i (responseOutcome v) with hc | ⟨hc, _⟩
        · rw [hc] at hp; exact .inl hp
        · rw [hc] at hp
          rcases List.mem_append.mp hp with hp | hp
          · exact .inl hp
          · simp only [List.mem_singleton] at hp
            rw [hp]
            exact .inr ⟨hij, rfl⟩
  · intro q hq hneq
    cases hl : lookupPending s v with
    | none =>
        rw [handleValue_resp_unmatched s v hid hl]
        exact hq
    | some pe =>
        obtain ⟨i, e⟩ := pe
        have hij : i = j := matchesNat_inj (lookupPending_matches hl) hm
        rw [handleValue_resp_matched s v i e hid hl, settle_pending]
        exact List.mem_filter.mpr ⟨hq, by simp [hij, hneq]⟩

/-- C2: triggering a pending request's cancellation token before its future
settles sends exactly one `$/cancelRequest` notification carrying the
original id, clears the request's timer and pending entry, rejects the
future with the cancellation failure, disarms the listener (so a second
trigger is a no-op), and a response for that id arriving afterwards is
dropped: it matches nothing and changes nothing. -/
theorem JsonRpc_cancellation (s : RpcState) (id : Nat)
    (hreg : id ∈ s.abortable) (hunsettled : id ∉ s.settledIds)
    (hopen : s.transportOpen = true) :
    (abortFire s id).sent =
      s.sent ++ [.notification "$/cancelRequest" (.obj [("id", .num id)])] ∧
    (∀ tm ∈ (abortFire s id).timers, tm.1 ≠ id) ∧
    (∀ p ∈ (abortFire s id).pending, p.1 ≠ id) ∧
    (abortFire s id).settled = s.settled ++ [(id, .aborted)] ∧
    id ∉ (abortFire s id).abortable ∧
    abortFire (abortFire s id) id = abortFire s id ∧
    (∀ v, isResponseFor v id = true →
      handleValue (abortFire s id) v = abortFire s id) := by
  rw [abortFire_open_unsettled hreg hopen hunsettled]
  refine ⟨rfl, ?_, ?_, rfl, ?_, ?_, ?_⟩
  · intro tm htm
    simpa using (List.mem_filter.mp htm).2
  · intro p hp
    simpa using (List.mem_filter.mp hp).2
  · intro hmem
    have := (List.mem_filter.mp hmem).2
    simp at this
  · apply abortFire_not_registered
    intro hmem
    have := (List.mem_filter.mp hmem).2
    simp at this
  · intro v hv
    obtain ⟨harr, hid, hm⟩ := isResponseFor_spec hv
    apply handleValue_resp_unmatched _ v hid
    apply lookupPending_none hm
    intro p hp
    simpa using (List.mem_filter.mp hp).2

/-- Witness for C2: a pending cancellable request with id 1, cancelled on
an open transport. -/
theorem JsonRpc_cancellation_witness :
    1 ∈ (run (initState none true)
      [Event.req "textDocument/completion" .null true]).abortable ∧
    1 ∉ (run (initState none true)
      [Event.req "textDocument/completion" .null true]).settledIds ∧
    (run (initState none true)
      [Event.req "textDocument/completion" .null true]).transportOpen =
        true ∧
    (abortFire (run (initState none true)
      [Event.req "textDocument/completion" .null true]) 1).settled =
      (run (initState none true)
        [Event.req "textDocument/completion" .null true]).settled ++
        [(1, .aborted)] :=
  ⟨by decide, by decide, by decide,
    (JsonRpc_cancellation
      (run (initState none true) [Event.req "textDocument/completion" .null true])
      1 (by decide) (by decide) (by decide)).2.2.2.1⟩

/-- C3: when the timeout timer of request `id` fires, the pending entry is
removed and the future rejects with the timeout failure for the request's
method — with no condition on, and no change to, transport health; a
response bearing that id arriving afterwards is dropped, and in general a
response whose id matches no pending entry is ignored with no effect; the
constructor's default timeout is 10000 ms. -/
theorem JsonRpc_timeout (s : RpcState) (id : Nat) (m : String)
    (htimer : s.timers.find? (fun t => t.1 == id) = some (id, m))
    (hunsettled : id ∉ s.settledIds) :
    (timeoutFire s id).settled = s.settled ++ [(id, .timeout m)] ∧
    (∀ p ∈ (timeoutFire s id).pending, p.1 ≠ id) ∧
    (∀ tm ∈ (timeoutFire s id).timers, tm.1 ≠ id) ∧
    (timeoutFire s id).transportOpen = s.transportOpen ∧
    (timeoutFire s id).sent = s.sent ∧
    (∀ v, isResponseFor v id = true →
      handleValue (timeoutFire s id) v = timeoutFire s id) ∧
    (∀ (t : RpcState) (w : Value), w.hasField "id" = true →
      lookupPending t w = none → handleValue t w = t) ∧
    (initState none true).timeoutMs = 10000 := by
  rw [timeoutFire_unsettled htimer hunsettled]
  refine ⟨rfl, ?_, ?_, rfl, rfl, ?_, ?_, rfl⟩
  · intro p hp
    simpa using (List.mem_filter.mp hp).2
  · intro tm htm
    simpa using (List.mem_filter.mp htm).2
  · intro v hv
    obtain ⟨harr, hid, hm⟩ := isResponseFor_spec hv
    apply handleValue_resp_unmatched _ v hid
    apply lookupPending_none hm
    intro p hp
    simpa using (List.mem_filter.mp hp).2
  · exact fun t w hw hn => handleValue_resp_unmatched t w hw hn

/-- Witness for C3: the single pending request with id 1 times out. -/
theorem JsonRpc_timeout_witness :
    (run (initState none true)
      [Event.req "textDocument/hover" .null false]).timers.find?
        (fun t => t.1 == 1) = some (1, "textDocument/hover") ∧
    1 ∉ (run (initState none true)
      [Event.req "textDocument/hover" .null false]).settledIds ∧
    (timeoutFire (run (initState none true)
      [Event.req "textDocument/hover" .null false]) 1).settled =
      (run (initState none true)
        [Event.req "textDocument/hover" .null false]).settled ++
        [(1, .timeout "textDocument/hover")] :=
  ⟨by decide, by decide,
    (JsonRpc_timeout
      (run (initState none true) [Event.req "textDocument/hover" .null false])
      1 "textDocument/hover" (by decide) (by decide)).1⟩

/-- A session with one pending request (id 1, no subscribers) on an open
transport. -/
def oneReqState : RpcState :=
  run (initState none true) [Event.req "textDocument/hover" .null false]

/-- C5 counterexample: a response whose error object carries the empty
message string is rejected with the fallback text `RPC Error`
(`msg.error.message || 'RPC Error'`), not with the error object's own
message — so code, message and data are not all preserved. -/
theorem JsonRpc_error_message_fallback_cex :
    (handleValue oneReqState
      (.obj [("id", .num 1), ("error", .obj [("code", .num (-32000)),
        ("message", .str ""), ("data", .null)])])).settled =
      [(1, .rpcError (.num (-32000)) (.str "RPC Error") .null)] ∧
    (handleValue oneReqState
      (.obj [("id", .num 1), ("error", .obj [("code", .num (-32000)),
        ("message", .str ""), ("data", .null)])])).settled ≠
      [(1, .rpcError (.num (-32000)) (.str "") .null)] :=
  ⟨by decide, by decide⟩

/-- C5 amended: for every inbound response whose id matches a pending
entry, the timer is cleared, the entry removed, and the future settled:
rejected — whenever the payload's `error` field is truthy — with an error
preserving the error object's code and data and preserving its message
exactly when the message is truthy (the fallback text `RPC Error` replaces
an absent, empty or otherwise falsy message), and resolved with the
payload's `result` field otherwise. -/
theorem JsonRpc_response_settlement (s : RpcState) (v : Value) (id : Nat)
    (e : PendingEntry) (hid : v.hasField "id" = true)
    (hl : lookupPending s v = some (id, e)) (hun : id ∉ s.settledIds) :
    (∀ tm ∈ (handleValue s v).timers, tm.1 ≠ id) ∧
    (∀ p ∈ (handleValue s v).pending, p.1 ≠ id) ∧
    ((v.getField "error").truthy = true →
      (handleValue s v).settled = s.settled ++
        [(id, .rpcError ((v.getField "error").getField "code")
          (if ((v.getField "error").getField "message").truthy then
            (v.getField "error").getField "message"
          else .str "RPC Error")
          ((v.getField "error").getField "data"))]) ∧
    ((v.getField "error").truthy = false →
      (handleValue s v).settled =
        s.settled ++ [(id, .resolved (v.getField "result"))]) := by
  rw [handleValue_resp_settles hid hl hun]
  refine ⟨?_, ?_, ?_, ?_⟩
  · intro tm htm
    simpa using (List.mem_filter.mp htm).2
  · intro p hp
    simpa using (List.mem_filter.mp hp).2
  · intro he; simp [responseOutcome, he]
  · intro he; simp [responseOutcome, he]

/-- Witness for C5 (amended): an error response with a nonempty message is
rejected with code, message and data intact. -/
theorem JsonRpc_response_settlement_witness :
    (Value.obj [("id", .num 1), ("error", .obj [("code", .num 5),
      ("message", .str "bad request"), ("data", .num 2)])]).hasField "id" =
      true ∧
    lookupPending oneReqState
      (.obj [("id", .num 1), ("error", .obj [("code", .num 5),
        ("message", .str "bad request"), ("data", .num 2)])]) =
      some (1, ⟨"textDocument/hover"⟩) ∧
    1 ∉ oneReqState.settledIds ∧
    (handleValue oneReqState
      (.obj [("id", .num 1), ("error", .obj [("code", .num 5),
        ("message", .str "bad request"), ("data", .num 2)])])).settled =
      oneReqState.settled ++
        [(1, .rpcError (.num 5)
          (if (Value.str "bad request").truthy then .str "bad request"
           else .str "RPC Error") (.num 2))] :=
  ⟨by decide, by decide, by decide,
    (JsonRpc_response_settlement oneReqState
      (.obj [("id", .num 1), ("error", .obj [("code", .num 5),
        ("message", .str "bad request"), ("data", .num 2)])])
      1 ⟨"textDocument/hover"⟩ (by decide) (by decide)
      (by decide)).2.2.1 (by decide)⟩

/-- C4 counterexample: a server-initiated request — a payload carrying both
a `method` and an `id` — whose id coincides with the outstanding client
request id 1 is not silently ignored although no subscriber exists for its
method: the pending entry is consumed and the client's future is resolved
with `undefined`. -/
theorem JsonRpc_server_request_cex :
    oneReqState.handlers = [] ∧
    (handleValue oneReqState
      (.obj [("id", .num 1), ("method", .str "workspace/applyEdit")])).pending
      ≠ oneReqState.pending ∧
    (handleValue oneReqState
      (.obj [("id", .num 1), ("method", .str "workspace/applyEdit")])).settled
      = [(1, .resolved .undefined)] :=
  ⟨by decide, by decide, by decide⟩

/-- C4 amended: an inbound payload carrying a `method` and no `id` whose
method has no registered subscriber is silently ignored — the state,
pending table included, is unchanged.  A payload carrying an `id`, even
alongside a `method`, is processed as a response and its method is never
dispatched: it is ignored exactly when its id matches no pending entry;
an id coinciding with an outstanding request settles that request and
consumes its entry. -/
theorem JsonRpc_unsubscribed_dispatch (s : RpcState) (v : Value)
    (harr : v.isArr = false) :
    (v.hasField "id" = false →
      (∀ m : String, v.getField "method" = .str m → m ∉ s.handlers) →
      handleValue s v = s) ∧
    (v.hasField "id" = true → lookupPending s v = none →
      handleValue s v = s) ∧
    (∀ id e, v.hasField "id" = true → lookupPending s v = some (id, e) →
      id ∉ s.settledIds →
      (handleValue s v).settled = s.settled ++ [(id, responseOutcome v)] ∧
      (∀ p ∈ (handleValue s v).pending, p.1 ≠ id) ∧
      (handleValue s v).emitted = s.emitted) := by
  refine ⟨?_, ?_, ?_⟩
  · intro hid hnosub
    rw [handleValue_not_arr s v harr, if_neg (by simp [hid])]
    cases hm : v.getField "method" with
    | str m =>
        have hns : m ∉ s.handlers := hnosub m hm
        have : s.handlers.contains m = false := by
          simpa using hns
        simp [this]
        intro _ hmem
        exact absurd hmem hns
    | null => rfl
    | undefined => rfl
    | bool b => rfl
    | num n => rfl
    | arr xs => rfl
    | obj fs => rfl
  · exact fun hid hn => handleValue_resp_unmatched s v hid hn
  · intro id e hid hl hun
    rw [handleValue_resp_settles hid hl hun]
    refine ⟨rfl, ?_, rfl⟩
    intro p hp
    simpa using (List.mem_filter.mp hp).2

/-- Witness for C4 (amended): a notification for an unsubscribed method
leaves the state unchanged. -/
theorem JsonRpc_unsubscribed_dispatch_witness :
    (Value.obj [("method", .str "window/logMessage"),
      ("params", .null)]).isArr = false ∧
    (Value.obj [("method", .str "window/logMessage"),
      ("params", .null)]).hasField "id" = false ∧
    handleValue oneReqState
      (.obj [("method", .str "window/logMessage"), ("params", .null)]) =
      oneReqState :=
  ⟨by decide, by decide,
    (JsonRpc_unsubscribed_dispatch oneReqState
      (.obj [("method", .str "window/logMessage"), ("params", .null)])
      (by decide)).1 (by decide)
      (by intro m hm hmem
          have hh : oneReqState.handlers = [] := by decide
          rw [hh] at hmem
          cases hmem)⟩

/-- C9: an inbound array payload is a batch handled element-wise under the
single-message rules: a batch of responses addressed to distinct pending,
unsettled request ids settles each of those requests with its own element's
outcome and removes each entry — every element matched only by its own
id. -/
theorem JsonRpc_batch (s : RpcState) (ps : List (Nat × Value))
    (hnodup : (ps.map Prod.fst).Nodup)
    (hresp : ∀ p ∈ ps, isResponseFor p.2 p.1 = true)
    (hpend : ∀ p ∈ ps, p.1 ∈ s.pendingIds)
    (hunset : ∀ p ∈ ps, p.1 ∉ s.settledIds) :
    ∀ p ∈ ps,
      (p.1, responseOutcome p.2) ∈
        (handleValue s (.arr (ps.map Prod.snd))).settled ∧
      p.1 ∉ (handleValue s (.arr (ps.map Prod.snd))).pendingIds := by
  induction ps generalizing s with
  | nil => intro p hp; cases hp
  | cons hd tl ih =>
      obtain ⟨j, v⟩ := hd
      have hnd : j ∉ tl.map Prod.fst ∧ (tl.map Prod.fst).Nodup := by
        simpa [List.nodup_cons] using hnodup
      obtain ⟨harr, hidv, hm⟩ :=
        isResponseFor_spec (hresp (j, v) (List.mem_cons_self _ _))
      obtain ⟨e, hl⟩ :=
        lookupPending_finds hm (hpend (j, v) (List.mem_cons_self _ _))
      have hstep :=
        handleValue_resp_settles hidv hl
          (hunset (j, v) (List.mem_cons_self _ _))
      have hs1settled : (handleValue s v).settled =
          s.settled ++ [(j, responseOutcome v)] := by rw [hstep]
      have hs1pending : (handleValue s v).pending =
          s.pending.filter (fun p => p.1 != j) := by rw [hstep]
      have hs1sid : (handleValue s v).settledIds = s.settledIds ++ [j] := by
        unfold RpcState.settledIds
        rw [hs1settled]
        simp
      have hbatch : handleValue s (.arr (((j, v) :: tl).map Prod.snd)) =
          handleValue (handleValue s v) (.arr (tl.map Prod.snd)) := rfl
      have htl_pend : ∀ p ∈ tl, p.1 ∈ (handleValue s v).pendingIds := by
        intro q hq
        obtain ⟨r, hrmem, hrfst⟩ :=
          List.mem_map.mp (hpend q (List.mem_cons_of_mem _ hq))
        have hqj : q.1 ≠ j := fun hEq =>
          hnd.1 (hEq ▸ List.mem_map_of_mem Prod.fst hq)
        apply List.mem_map.mpr
        refine ⟨r, ?_, hrfst⟩
        rw [hs1pending]
        exact List.mem_filter.mpr ⟨hrmem, by simp [hrfst, hqj]⟩
      have htl_unset : ∀ p ∈ tl, p.1 ∉ (handleValue s v).settledIds := by
        intro q hq hmem
        have hqj : q.1 ≠ j := fun hEq =>
          hnd.1 (hEq ▸ List.mem_map_of_mem Prod.fst hq)
        rw [hs1sid] at hmem
        rcases List.mem_append.mp hmem with hmem | hmem
        · exact hunset q (List.mem_cons_of_mem _ hq) hmem
        · simp only [List.mem_singleton] at hmem
          exact hqj hmem
      have htail := ih (handleValue s v) hnd.2
        (fun p hp => hresp p (List.mem_cons_of_mem _ hp)) htl_pend htl_unset
      intro p hp
      rcases List.mem_cons.mp hp with hphd | hptl
      · subst hphd
        obtain ⟨_, _, _, _, _, _, hmono, hpsub, _, _⟩ :=
          handleValue_inv (handleValue s v) (.arr (tl.map Prod.snd))
        constructor
        · rw [hbatch]
          exact hmono _ (by rw [hs1settled]; simp)
        · rw [hbatch]
          intro hmem
          obtain ⟨r, hrmem, hrfst⟩ := List.mem_map.mp hmem
          have hr1 := hpsub r hrmem
          rw [hs1pending] at hr1
          have := (List.mem_filter.mp hr1).2
          rw [hrfst] at this
          simp at this
      · rw [hbatch]
        exact htail p hptl

/-- Witness for C9: two pending requests settled by a two-element batch,
one success and one error. -/
theorem JsonRpc_batch_witness :
    ([((1 : Nat), Value.obj [("id", .num 1), ("result", .num 10)]),
      ((2 : Nat), Value.obj [("id", .num 2),
        ("error", .obj [("code", .num 1), ("message", .str "x")])])].map
          Prod.fst).Nodup ∧
    (1, responseOutcome (.obj [("id", .num 1), ("result", .num 10)])) ∈
      (handleValue
        (run (initState none true) [Event.req "alpha" .null false,
          Event.req "beta" .null false])
        (.arr ([((1 : Nat), Value.obj [("id", .num 1), ("result", .num 10)]),
          ((2 : Nat), Value.obj [("id", .num 2),
            ("error", .obj [("code", .num 1), ("message", .str "x")])])].map
              Prod.snd))).settled :=
  ⟨by decide,
    ((JsonRpc_batch
      (run (initState none true) [Event.req "alpha" .null false,
        Event.req "beta" .null false])
      [((1 : Nat), Value.obj [("id", .num 1), ("result", .num 10)]),
        ((2 : Nat), Value.obj [("id", .num 2),
          ("error", .obj [("code", .num 1), ("message", .str "x")])])]
      (by decide) (by decide) (by decide) (by decide))
      (1, .obj [("id", .num 1), ("result", .num 10)])
      (List.mem_cons_self _ _)).1⟩

/-- C6 counterexample: the `shutdown` request (id 1) goes out on a live
transport; the connection then dies and the request rejects with the
timeout failure — a rejection case the claim explicitly includes — yet no
`exit` frame reaches the transport before control returns: the unguarded
`rpc.notify` inside the `finally` clause throws on the closed socket. -/
theorem LspClient_shutdown_exit_lost_cex :
    (run (request (initState none true) "shutdown" .undefined false).1
      [Event.transport false, Event.timerFires 1]).settled =
      [(1, .timeout "shutdown")] ∧
    WireMsg.notification "exit" .undefined ∉
      (shutdownCall (initState none true)
        [Event.transport false, Event.timerFires 1]).sent :=
  ⟨by decide, by decide⟩

/-- C6 amended: `shutdown()` reaches its `finally` clause — which invokes
`rpc.notify` with `exit` — before control returns, whatever happened to the
`shutdown` request (`interim` ranges over every possible history between
the request going out and control re-entering `shutdown`: an error
response, a timeout, anything).  When the transport is open at that moment
the `exit` notification is the last frame handed to the transport before
control returns; when the connection is down, the unguarded send inside
the `finally` throws and no `exit` frame goes out, the engine state left
exactly as the `finally` found it. -/
theorem LspClient_shutdown_exit_attempt (s : RpcState)
    (interim : List Event) :
    ((run (request s "shutdown" .undefined false).1
        interim).transportOpen = true →
      (shutdownCall s interim).sent =
        (run (request s "shutdown" .undefined false).1 interim).sent ++
          [.notification "exit" .undefined] ∧
      WireMsg.notification "exit" .undefined ∈
        (shutdownCall s interim).sent) ∧
    ((run (request s "shutdown" .undefined false).1
        interim).transportOpen = false →
      shutdownCall s interim =
        run (request s "shutdown" .undefined false).1 interim) := by
  constructor
  · intro hopen
    have h1 : shutdownCall s interim =
        { run (request s "shutdown" .undefined false).1 interim with
          sent := (run (request s "shutdown" .undefined false).1
            interim).sent ++ [.notification "exit" .undefined] } := by
      simp only [shutdownCall, notify_open "exit" Value.undefined hopen]
    refine ⟨by rw [h1], ?_⟩
    rw [h1]
    simp
  · intro hclosed
    simp only [shutdownCall, notify_closed "exit" Value.undefined hclosed]

/-- Witness for C6 (amended): the `shutdown` request (id 1) is rejected by
a server error response on a live transport, and `exit` still goes out on
the transport before control returns. -/
theorem LspClient_shutdown_exit_attempt_witness :
    (run (request (initState none true) "shutdown" .undefined false).1
      [Event.recv (.obj [("id", .num 1), ("error", .obj [("code", .num 1),
        ("message", .str "server failure")])])]).transportOpen = true ∧
    (run (request (initState none true) "shutdown" .undefined false).1
      [Event.recv (.obj [("id", .num 1), ("error", .obj [("code", .num 1),
        ("message", .str "server failure")])])]).settled =
      [(1, .rpcError (.num 1) (.str "server failure") .undefined)] ∧
    WireMsg.notification "exit" .undefined ∈
      (shutdownCall (initState none true)
        [Event.recv (.obj [("id", .num 1), ("error", .obj [("code", .num 1),
          ("message", .str "server failure")])])]).sent :=
  ⟨by decide, by decide,
    ((LspClient_shutdown_exit_attempt (initState none true)
      [Event.recv (.obj [("id", .num 1), ("error", .obj [("code", .num 1),
        ("message", .str "server failure")])])]).1 (by decide)).2⟩

/-- C7: the SyncKind the session client derives from a successful
`initialize` result, starting from the default kind Full (1): a bare number
in `capabilities.textDocumentSync` is used directly (so 2 is Incremental);
an object carrying a `change` field (one that is neither `null` nor absent)
yields that field (so `{change: 1}` is Full); an absent field leaves the
default Full (1). -/
theorem LspClient_syncKind (res : Value) :
    (∀ n : Int,
      (capabilitiesOf res).getField "textDocumentSync" = .num n →
      deriveSyncKind initialSyncKind res = some (.num n)) ∧
    (∀ fs, (capabilitiesOf res).getField "textDocumentSync" = .obj fs →
      looseNonNull (Value.getField (.obj fs) "change") = true →
      deriveSyncKind initialSyncKind res =
        some (Value.getField (.obj fs) "change")) ∧
    ((capabilitiesOf res).getField "textDocumentSync" = .undefined →
      deriveSyncKind initialSyncKind res = some (.num 1)) := by
  refine ⟨?_, ?_, ?_⟩
  · intro n h
    simp [deriveSyncKind, h, jsTypeofNumber]
  · intro fs h hc
    simp [deriveSyncKind, h, jsTypeofNumber, jsTypeofObject, hc]
  · intro h
    simp [deriveSyncKind, h, jsTypeofNumber, jsTypeofObject, initialSyncKind]

/-- Witness for C7 at the three capability shapes the spec names:
`textDocumentSync = 2`, `textDocumentSync = {change: 1}`, and the field
absent. -/
theorem LspClient_syncKind_witness :
    (capabilitiesOf (.obj [("capabilities",
      .obj [("textDocumentSync", .num 2)])])).getField "textDocumentSync" =
        .num 2 ∧
    deriveSyncKind initialSyncKind
      (.obj [("capabilities", .obj [("textDocumentSync", .num 2)])]) =
        some (.num 2) ∧
    deriveSyncKind initialSyncKind
      (.obj [("capabilities", .obj [("textDocumentSync",
        .obj [("change", .num 1)])])]) = some (.num 1) ∧
    deriveSyncKind initialSyncKind (.obj [("capabilities", .obj [])]) =
      some (.num 1) :=
  ⟨by decide,
    (LspClient_syncKind
      (.obj [("capabilities", .obj [("textDocumentSync", .num 2)])])).1 2
      (by decide),
    (LspClient_syncKind
      (.obj [("capabilities", .obj [("textDocumentSync",
        .obj [("change", .num 1)])])])).2.1 [("change", .num 1)]
      (by decide) (by decide),
    (LspClient_syncKind (.obj [("capabilities", .obj [])])).2.2 (by decide)⟩

/-- Witness for C1: one request pending, a response for its id. -/
theorem JsonRpc_no_crosstalk_witness :
    isResponseFor
      (.obj [("id", .num 1), ("result", .num 7)]) 1 = true ∧
    (∀ p ∈ (handleValue
        (run (initState none true) [Event.req "textDocument/hover" .null false])
        (.obj [("id", .num 1), ("result", .num 7)])).settled,
      p ∈ (run (initState none true)
        [Event.req "textDocument/hover" .null false]).settled ∨
        (p.1 = 1 ∧ p.2 = responseOutcome
          (.obj [("id", .num 1), ("result", .num 7)]))) :=
  ⟨by decide,
    (JsonRpc_no_crosstalk none true
      [Event.req "textDocument/hover" .null false] _
      (.obj [("id", .num 1), ("result", .num 7)]) 1 rfl (by decide)).2.1⟩

end EditorLsp
